import Mathlib

/-!
A shallow embedding of the coordinator core of `server.py`: the
`ClientManager` (client registry with admission control, heartbeat,
bounded per-client command queues, inactivity sweep) and the
`ConnectionRateLimiter` (sliding 60-second window).

Modelling conventions:
* Python `dict` / `defaultdict(list)` become association lists
  `List (String × β)` with `dictGet` / `dictSet`; `dictSet` overwrites
  in place, as Python dict assignment does.
* `datetime.now()` / `time.time()` become an explicit `now : Nat`
  argument (seconds); `(a - b).total_seconds()` becomes truncated
  `Nat` subtraction, which agrees with the Python comparison
  `diff > timeout` on all monotone traces (a negative float difference
  and a truncated-to-zero Nat difference both fail `> timeout`).
* psutil's float percentages become `ℚ`.
* Command payloads (`dict` in Python) are an opaque type parameter `Cmd`.
* Methods that mutate `self` return the new state (paired with the
  Python return value when there is one).
-/

namespace RemoteServer

/-- Lookup in an association list, modelling Python `d[k]` / `k in d`. -/
def dictGet {β : Type} (k : String) : List (String × β) → Option β
  | [] => none
  | (k', v) :: rest => if k' = k then some v else dictGet k rest

/-- Overwriting insertion, modelling Python `d[k] = v` (keeps the key's
position when present, appends otherwise). -/
def dictSet {β : Type} (k : String) (v : β) : List (String × β) → List (String × β)
  | [] => [(k, v)]
  | (k', v') :: rest => if k' = k then (k, v) :: rest else (k', v') :: dictSet k v rest

/-- `ClientInfo` dataclass of `server.py` (lines 29-42). The
`__post_init__` default for `connection_time` is supplied by callers
as an explicit timestamp. -/
structure ClientInfo where
  client_id : String
  ip : String
  hostname : String
  last_seen : Nat
  status : String := "online"
  connection_time : Nat
  resource_usage : ℚ := 0
  commands_processed : Nat := 0
deriving DecidableEq

/-- The `system_resources` dict of `ClientManager.__init__`. -/
structure SystemResources where
  cpu_usage : ℚ := 0
  memory_usage : ℚ := 0
  active_connections : Nat := 0
deriving DecidableEq

/-- State of `ClientManager` (server.py lines 44-60). The background
monitor thread is modelled by the `system_resources` snapshot being an
arbitrary part of the state; registry operations never change it. -/
structure ClientManager (Cmd : Type) where
  clients : List (String × ClientInfo) := []
  commands_queue : List (String × List Cmd) := []
  max_clients : Nat := 50
  resource_threshold : ℚ := 4/5
  system_resources : SystemResources := {}
deriving DecidableEq

/-- `len([c for c in l if c.status == 'online'])` on a client map. -/
def countOnline (l : List (String × ClientInfo)) : Nat :=
  (l.filter (fun p => p.2.status == "online")).length

/-- The `active_clients` count used by `can_accept_client` and
`get_system_status`: `len([c for c in clients.values() if c.status == 'online'])`. -/
def onlineCount {Cmd : Type} (m : ClientManager Cmd) : Nat :=
  countOnline m.clients

/-- `ClientManager.can_accept_client` (server.py lines 80-94). -/
def can_accept_client {Cmd : Type} (m : ClientManager Cmd) : Bool :=
  let active_clients := onlineCount m
  if active_clients ≥ m.max_clients then false
  else if m.system_resources.cpu_usage > 80 ∨ m.system_resources.memory_usage > 85 then false
  else true

/-- `ClientManager.register_client` (server.py lines 96-112). Returns
the Python boolean result together with the new state. -/
def register_client {Cmd : Type} (m : ClientManager Cmd)
    (client_id ip hostname : String) (now : Nat) : Bool × ClientManager Cmd :=
  if ¬ can_accept_client m then (false, m)
  else
    let info : ClientInfo :=
      { client_id := client_id, ip := ip, hostname := hostname,
        last_seen := now, connection_time := now }
    (true, { m with clients := dictSet client_id info m.clients })

/-- `ClientManager.update_heartbeat` (server.py lines 114-121). -/
def update_heartbeat {Cmd : Type} (m : ClientManager Cmd)
    (client_id : String) (now : Nat) : Bool × ClientManager Cmd :=
  match dictGet client_id m.clients with
  | some c =>
      let c' : ClientInfo := { c with last_seen := now, status := "online" }
      (true, { m with clients := dictSet client_id c' m.clients })
  | none => (false, m)

/-- `ClientManager.add_command` (server.py lines 123-131). The
`defaultdict(list)` read `commands_queue[client_id]` is `dictGet ... |>.getD []`;
when the queue is full the command is dropped (only a warning is logged). -/
def add_command {Cmd : Type} (m : ClientManager Cmd)
    (client_id : String) (command : Cmd) : ClientManager Cmd :=
  match dictGet client_id m.clients with
  | some _ =>
      let q := (dictGet client_id m.commands_queue).getD []
      if q.length < 10 then
        { m with commands_queue := dictSet client_id (q ++ [command]) m.commands_queue }
      else m
  | none => m

/-- `ClientManager.get_command` (server.py lines 133-139): pop the head
of the queue if the key is present and the list non-empty, else `None`. -/
def get_command {Cmd : Type} (m : ClientManager Cmd)
    (client_id : String) : Option Cmd × ClientManager Cmd :=
  match dictGet client_id m.commands_queue with
  | some (c :: rest) =>
      (some c, { m with commands_queue := dictSet client_id rest m.commands_queue })
  | _ => (none, m)

/-- `ClientManager.cleanup_inactive_clients` (server.py lines 141-154):
mark offline every client with `(now - last_seen) > timeout_seconds`.
The `inactive_clients` list is only used for logging. -/
def cleanup_inactive_clients {Cmd : Type} (m : ClientManager Cmd)
    (now : Nat) (timeout_seconds : Nat) : ClientManager Cmd :=
  { m with clients := m.clients.map (fun p =>
      if now - p.2.last_seen > timeout_seconds
      then (p.1, { p.2 with status := "offline" }) else p) }

/-- State of `ConnectionRateLimiter` (server.py lines 174-178). -/
structure ConnectionRateLimiter where
  connection_times : List Nat := []
  max_connections : Nat := 60
deriving DecidableEq

/-- `ConnectionRateLimiter.allow_connection` (server.py lines 180-193):
prune timestamps with `current_time - t >= 60`, then append and allow
if fewer than `max_connections` remain. -/
def allow_connection (r : ConnectionRateLimiter)
    (current_time : Nat) : Bool × ConnectionRateLimiter :=
  let connection_times := r.connection_times.filter (fun t => current_time - t < 60)
  if connection_times.length < r.max_connections then
    (true, { r with connection_times := connection_times ++ [current_time] })
  else
    (false, { r with connection_times := connection_times })

/-- One registry operation, for reasoning about operation sequences.
Each constructor applies the correspondingly named `ClientManager`
method; timestamps are the explicit `now` of that call. -/
inductive Op (Cmd : Type) where
  | register (client_id ip hostname : String) (now : Nat)
  | heartbeat (client_id : String) (now : Nat)
  | addCommand (client_id : String) (cmd : Cmd)
  | getCommand (client_id : String)
  | cleanup (now timeout_seconds : Nat)
deriving DecidableEq

def Op.isRegister {Cmd : Type} : Op Cmd → Bool
  | .register .. => true
  | _ => false

def applyOp {Cmd : Type} (m : ClientManager Cmd) : Op Cmd → ClientManager Cmd
  | .register id ip h now => (register_client m id ip h now).2
  | .heartbeat id now => (update_heartbeat m id now).2
  | .addCommand id cmd => add_command m id cmd
  | .getCommand id => (get_command m id).2
  | .cleanup now t => cleanup_inactive_clients m now t

def runOps {Cmd : Type} (m : ClientManager Cmd) (ops : List (Op Cmd)) : ClientManager Cmd :=
  ops.foldl applyOp m

/-- A fresh `ClientManager(max_clients=maxC)` whose resource snapshot
currently reads `res` (the monitor thread owns that field; `{}` is the
all-zero initial snapshot of `__init__`). -/
def initManager (Cmd : Type) (maxC : Nat) (res : SystemResources) : ClientManager Cmd :=
  { clients := [], commands_queue := [], max_clients := maxC,
    resource_threshold := 4/5, system_resources := res }

/-- The contents of a client's command queue, as `add_command` reads it:
`commands_queue[client_id]` on the `defaultdict(list)`. -/
def queueOf {Cmd : Type} (m : ClientManager Cmd) (k : String) : List Cmd :=
  (dictGet k m.commands_queue).getD []

/-- Poll `get_command` up to `n` times, collecting the returned commands
until the first `None`; models an agent draining its queue. -/
def drainAll {Cmd : Type} : ClientManager Cmd → String → Nat → List Cmd
  | _, _, 0 => []
  | m, k, n + 1 =>
    match get_command m k with
    | (some c, m') => c :: drainAll m' k n
    | (none, _) => []

/-- Run `allow_connection` once per timestamp in order, collecting the
returned booleans. -/
def allowSeq (r : ConnectionRateLimiter) : List Nat → List Bool
  | [] => []
  | t :: ts => (allow_connection r t).1 :: allowSeq (allow_connection r t).2 ts

/-- The `ClientInfo` record that a successful `register_client` stores:
all dataclass defaults spelled out. -/
def registeredInfo (id ip host : String) (now : Nat) : ClientInfo :=
  { client_id := id, ip := ip, hostname := host, last_seen := now,
    status := "online", connection_time := now,
    resource_usage := 0, commands_processed := 0 }

/-- The record `update_heartbeat` writes back for an existing client:
only `last_seen` and `status` change. -/
def touchedInfo (c : ClientInfo) (now : Nat) : ClientInfo :=
  { c with last_seen := now, status := "online" }

/-- The operation sequence of C3: with `max_clients = 1`, admit `c1`,
sweep it offline after a silence of 400 s, admit `c2`, then a heartbeat
from `c1` — leaving two online clients. -/
def overflowTrace : List (Op Nat) :=
  [Op.register "c1" "ip1" "h1" 0, Op.cleanup 400 300,
   Op.register "c2" "ip2" "h2" 400, Op.heartbeat "c1" 401]

/-- The operation sequence used for the queue-overflow claims: register a
single client `"c"`, then enqueue each command of `cmds` in order. -/
def enqueueTrace (cmds : List Nat) : List (Op Nat) :=
  Op.register "c" "ip" "h" 0 :: cmds.map (fun c => Op.addCommand "c" c)

/-! ### Basic lemmas about the dictionary model -/

theorem dictGet_dictSet_self {β : Type} (k : String) (v : β) (l : List (String × β)) :
    dictGet k (dictSet k v l) = some v := by
  induction l with
  | nil => simp [dictGet, dictSet]
  | cons p rest ih =>
    obtain ⟨k', v'⟩ := p
    by_cases h : k' = k <;> simp [dictGet, dictSet, h, ih]

theorem dictGet_dictSet_ne {β : Type} {k k' : String} (v : β) (l : List (String × β))
    (h : k ≠ k') : dictGet k' (dictSet k v l) = dictGet k' l := by
  induction l with
  | nil => simp [dictGet, dictSet, h]
  | cons p rest ih =>
    obtain ⟨k'', v''⟩ := p
    by_cases h2 : k'' = k
    · subst h2; simp [dictGet, dictSet, h]
    · simp [dictGet, dictSet, h2, ih]

theorem countOnline_cons (p : String × ClientInfo) (l : List (String × ClientInfo)) :
    countOnline (p :: l) =
      (if p.2.status == "online" then 1 else 0) + countOnline l := by
  simp only [countOnline, List.filter_cons]
  split <;> simp [Nat.add_comm]

theorem countOnline_dictSet_le (k : String) (v : ClientInfo)
    (l : List (String × ClientInfo)) :
    countOnline (dictSet k v l) ≤ countOnline l + 1 := by
  induction l with
  | nil =>
    simp only [dictSet, countOnline, List.filter_cons, List.filter_nil]
    split <;> simp
  | cons p rest ih =>
    obtain ⟨k', v'⟩ := p
    by_cases h : k' = k
    · subst h
      have hd : dictSet k' v ((k', v') :: rest) = (k', v) :: rest := by
        simp [dictSet]
      rw [hd, countOnline_cons, countOnline_cons]
      split <;> split <;> omega
    · simp only [dictSet, if_neg h]
      rw [countOnline_cons, countOnline_cons]
      omega

/-! ### Frame lemmas: which fields each operation can change -/

theorem register_client_max_clients {Cmd : Type} (m : ClientManager Cmd)
    (id ip host : String) (now : Nat) :
    (register_client m id ip host now).2.max_clients = m.max_clients := by
  unfold register_client; split <;> rfl

theorem register_client_commands_queue {Cmd : Type} (m : ClientManager Cmd)
    (id ip host : String) (now : Nat) :
    (register_client m id ip host now).2.commands_queue = m.commands_queue := by
  unfold register_client; split <;> rfl

theorem register_client_system_resources {Cmd : Type} (m : ClientManager Cmd)
    (id ip host : String) (now : Nat) :
    (register_client m id ip host now).2.system_resources = m.system_resources := by
  unfold register_client; split <;> rfl

theorem update_heartbeat_max_clients {Cmd : Type} (m : ClientManager Cmd)
    (id : String) (now : Nat) :
    (update_heartbeat m id now).2.max_clients = m.max_clients := by
  unfold update_heartbeat; split <;> rfl

theorem update_heartbeat_commands_queue {Cmd : Type} (m : ClientManager Cmd)
    (id : String) (now : Nat) :
    (update_heartbeat m id now).2.commands_queue = m.commands_queue := by
  unfold update_heartbeat; split <;> rfl

theorem add_command_max_clients {Cmd : Type} (m : ClientManager Cmd)
    (id : String) (cmd : Cmd) :
    (add_command m id cmd).max_clients = m.max_clients := by
  unfold add_command; split
  · dsimp only; split <;> rfl
  · rfl

theorem add_command_clients {Cmd : Type} (m : ClientManager Cmd)
    (id : String) (cmd : Cmd) :
    (add_command m id cmd).clients = m.clients := by
  unfold add_command; split
  · dsimp only; split <;> rfl
  · rfl

theorem get_command_max_clients {Cmd : Type} (m : ClientManager Cmd) (id : String) :
    (get_command m id).2.max_clients = m.max_clients := by
  unfold get_command; split <;> rfl

theorem get_command_clients {Cmd : Type} (m : ClientManager Cmd) (id : String) :
    (get_command m id).2.clients = m.clients := by
  unfold get_command; split <;> rfl

theorem cleanup_commands_queue {Cmd : Type} (m : ClientManager Cmd) (now t : Nat) :
    (cleanup_inactive_clients m now t).commands_queue = m.commands_queue := rfl

theorem cleanup_max_clients {Cmd : Type} (m : ClientManager Cmd) (now t : Nat) :
    (cleanup_inactive_clients m now t).max_clients = m.max_clients := rfl

theorem applyOp_max_clients {Cmd : Type} (m : ClientManager Cmd) (op : Op Cmd) :
    (applyOp m op).max_clients = m.max_clients := by
  cases op with
  | register id ip host now => exact register_client_max_clients m id ip host now
  | heartbeat id now => exact update_heartbeat_max_clients m id now
  | addCommand id cmd => exact add_command_max_clients m id cmd
  | getCommand id => exact get_command_max_clients m id
  | cleanup now t => exact cleanup_max_clients m now t

theorem runOps_max_clients {Cmd : Type} (ops : List (Op Cmd)) :
    ∀ m : ClientManager Cmd, (runOps m ops).max_clients = m.max_clients := by
  induction ops with
  | nil => intro m; rfl
  | cons op ops ih =>
    intro m
    show (runOps (applyOp m op) ops).max_clients = m.max_clients
    rw [ih, applyOp_max_clients]

/-! ### Admission control -/

theorem can_accept_client_iff {Cmd : Type} (m : ClientManager Cmd) :
    can_accept_client m = true ↔
      onlineCount m < m.max_clients ∧
      ¬ (m.system_resources.cpu_usage > 80 ∨ m.system_resources.memory_usage > 85) := by
  unfold can_accept_client
  by_cases h1 : onlineCount m ≥ m.max_clients
  · simp [h1]
  · by_cases h2 : m.system_resources.cpu_usage > 80 ∨ m.system_resources.memory_usage > 85
    · simp [h1, h2]
    · simp [h1, h2]; omega

theorem register_client_rejected {Cmd : Type} (m : ClientManager Cmd)
    (id ip host : String) (now : Nat) (h : can_accept_client m = false) :
    register_client m id ip host now = (false, m) := by
  simp [register_client, h]

theorem register_client_accepted {Cmd : Type} (m : ClientManager Cmd)
    (id ip host : String) (now : Nat) (h : can_accept_client m = true) :
    register_client m id ip host now =
      (true, { m with clients := dictSet id (registeredInfo id ip host now) m.clients }) := by
  simp [register_client, h, registeredInfo]

/-- C1. `register_client` returns false and leaves the state unchanged
exactly when the count of online clients has reached `max_clients` or the
resource snapshot shows `cpu_usage > 80` or `memory_usage > 85`; otherwise
it returns true and inserts/overwrites the client record with status
`online` and both timestamps set to the current time. -/
theorem register_client_admission_policy {Cmd : Type} (m : ClientManager Cmd)
    (id ip host : String) (now : Nat) :
    register_client m id ip host now =
      if onlineCount m ≥ m.max_clients ∨
          m.system_resources.cpu_usage > 80 ∨ m.system_resources.memory_usage > 85
      then (false, m)
      else (true, { m with clients := dictSet id (registeredInfo id ip host now) m.clients }) := by
  by_cases h : onlineCount m ≥ m.max_clients ∨
      m.system_resources.cpu_usage > 80 ∨ m.system_resources.memory_usage > 85
  · rw [if_pos h]
    apply register_client_rejected
    rcases Bool.eq_false_or_eq_true (can_accept_client m) with ht | hf
    · exfalso
      rcases (can_accept_client_iff m).1 ht with ⟨hlt, hres⟩
      rcases h with h1 | h2
      · omega
      · exact hres h2
    · exact hf
  · rw [if_neg h]
    push_neg at h
    obtain ⟨h1, h2, h3⟩ := h
    exact register_client_accepted m id ip host now
      ((can_accept_client_iff m).2 ⟨by omega, by
        intro hc; rcases hc with hc | hc
        · exact absurd hc (not_lt.2 h2)
        · exact absurd hc (not_lt.2 h3)⟩)

theorem onlineCount_register_le {Cmd : Type} (m : ClientManager Cmd)
    (id ip host : String) (now : Nat) (hm : onlineCount m ≤ m.max_clients) :
    onlineCount (register_client m id ip host now).2 ≤ m.max_clients := by
  rcases Bool.eq_false_or_eq_true (can_accept_client m) with ht | hf
  · have hlt := ((can_accept_client_iff m).1 ht).1
    rw [register_client_accepted m id ip host now ht]
    have hle := countOnline_dictSet_le id (registeredInfo id ip host now) m.clients
    simp only [onlineCount] at hlt hle ⊢
    omega
  · rw [register_client_rejected m id ip host now hf]
    exact hm

theorem register_client_at_capacity {Cmd : Type} (m : ClientManager Cmd)
    (id ip host : String) (now : Nat) (h : m.max_clients ≤ onlineCount m) :
    register_client m id ip host now = (false, m) := by
  apply register_client_rejected
  rcases Bool.eq_false_or_eq_true (can_accept_client m) with ht | hf
  · have := ((can_accept_client_iff m).1 ht).1
    omega
  · exact hf

theorem onlineCount_runOps_register_le {Cmd : Type} (ops : List (Op Cmd)) :
    ∀ m : ClientManager Cmd, (∀ op ∈ ops, op.isRegister = true) →
      onlineCount m ≤ m.max_clients →
      onlineCount (runOps m ops) ≤ m.max_clients := by
  induction ops with
  | nil => intro m _ hm; exact hm
  | cons op ops ih =>
    intro m hall hm
    have hop := hall op (List.mem_cons_self op ops)
    have htail : ∀ o ∈ ops, Op.isRegister o = true :=
      fun o hmem => hall o (List.mem_cons_of_mem _ hmem)
    cases op with
    | register id ip host now =>
      have hstep : onlineCount (register_client m id ip host now).2 ≤ m.max_clients :=
        onlineCount_register_le m id ip host now hm
      have hmax := register_client_max_clients m id ip host now
      have := ih (register_client m id ip host now).2 htail (by rw [hmax]; exact hstep)
      rw [hmax] at this
      exact this
    | heartbeat id now => simp [Op.isRegister] at hop
    | addCommand id cmd => simp [Op.isRegister] at hop
    | getCommand id => simp [Op.isRegister] at hop
    | cleanup now t => simp [Op.isRegister] at hop

/-- C2. Starting from an empty registry, along any sequence consisting
only of `register_client` calls the number of online clients never
exceeds `max_clients`, and whenever `max_clients` clients are online a
further `register_client` returns false and leaves the state unchanged. -/
theorem register_only_capacity_invariant (maxC : Nat) (res : SystemResources)
    (ops : List (Op Nat)) (hreg : ∀ op ∈ ops, op.isRegister = true) :
    onlineCount (runOps (initManager Nat maxC res) ops) ≤ maxC ∧
    (∀ id ip host now,
      maxC ≤ onlineCount (runOps (initManager Nat maxC res) ops) →
      register_client (runOps (initManager Nat maxC res) ops) id ip host now =
        (false, runOps (initManager Nat maxC res) ops)) := by
  have hmax : (runOps (initManager Nat maxC res) ops).max_clients = maxC :=
    runOps_max_clients ops (initManager Nat maxC res)
  constructor
  · exact onlineCount_runOps_register_le ops (initManager Nat maxC res) hreg
      (by simp [onlineCount, countOnline, initManager])
  · intro id ip host now h
    exact register_client_at_capacity _ id ip host now (by rw [hmax]; exact h)

/-- Witness for C2 at `max_clients = 1` and two registrations: the second
is already rejected and a third attempt is too. -/
theorem register_only_capacity_invariant_witness :
    onlineCount (runOps (initManager Nat 1 ⟨0, 0, 0⟩)
        [Op.register "a" "i" "h" 0, Op.register "b" "i" "h" 1]) ≤ 1 ∧
    register_client (runOps (initManager Nat 1 ⟨0, 0, 0⟩)
        [Op.register "a" "i" "h" 0, Op.register "b" "i" "h" 1]) "c" "i" "h" 9 =
      (false, runOps (initManager Nat 1 ⟨0, 0, 0⟩)
        [Op.register "a" "i" "h" 0, Op.register "b" "i" "h" 1]) :=
  ⟨(register_only_capacity_invariant 1 ⟨0, 0, 0⟩
      [Op.register "a" "i" "h" 0, Op.register "b" "i" "h" 1] (by decide)).1,
   (register_only_capacity_invariant 1 ⟨0, 0, 0⟩
      [Op.register "a" "i" "h" 0, Op.register "b" "i" "h" 1] (by decide)).2
     "c" "i" "h" 9 (by decide)⟩

/-- C3. `update_heartbeat` sets a registered client's status to online
unconditionally (no capacity or resource check), and consequently the
`overflowTrace` sequence of admit/sweep/touch operations ends with two
online clients against `max_clients = 1`. -/
theorem heartbeat_unconditional_online_overflow :
    (∀ (m : ClientManager Nat) (id : String) (now : Nat) (c : ClientInfo),
      dictGet id m.clients = some c →
        (update_heartbeat m id now).1 = true ∧
        dictGet id (update_heartbeat m id now).2.clients =
          some { c with last_seen := now, status := "online" }) ∧
    onlineCount (runOps (initManager Nat 1 ⟨0, 0, 0⟩) overflowTrace) = 2 ∧
    (runOps (initManager Nat 1 ⟨0, 0, 0⟩) overflowTrace).max_clients = 1 := by
  refine ⟨fun m id now c hc => ?_, by decide, by decide⟩
  simp only [update_heartbeat, hc]
  exact ⟨trivial, dictGet_dictSet_self id _ m.clients⟩

/-- Witness for C3's universally quantified part at a concrete one-client
registry. -/
theorem heartbeat_unconditional_online_overflow_witness :
    (update_heartbeat
        ({ clients := [("c1", registeredInfo "c1" "ip" "h" 0)] } : ClientManager Nat)
        "c1" 7).1 = true :=
  (heartbeat_unconditional_online_overflow.1
    ({ clients := [("c1", registeredInfo "c1" "ip" "h" 0)] } : ClientManager Nat)
    "c1" 7 (registeredInfo "c1" "ip" "h" 0) (by decide)).1

/-! ### Command queue lemmas -/

theorem queueOf_add_command_self {Cmd : Type} (m : ClientManager Cmd)
    (id : String) (cmd : Cmd) (hreg : (dictGet id m.clients).isSome = true) :
    queueOf (add_command m id cmd) id =
      if (queueOf m id).length < 10 then queueOf m id ++ [cmd] else queueOf m id := by
  obtain ⟨c, hc⟩ := Option.isSome_iff_exists.1 hreg
  by_cases hlen : ((dictGet id m.commands_queue).getD []).length < 10
  · simp [add_command, queueOf, hc, hlen, dictGet_dictSet_self]
  · simp [add_command, queueOf, hc, hlen]

theorem queueOf_add_command_ne {Cmd : Type} (m : ClientManager Cmd)
    (id k : String) (cmd : Cmd) (hk : id ≠ k) :
    queueOf (add_command m id cmd) k = queueOf m k := by
  cases hc : dictGet id m.clients with
  | none => simp [add_command, hc]
  | some c =>
    by_cases hlen : ((dictGet id m.commands_queue).getD []).length < 10
    · simp [add_command, queueOf, hc, hlen, dictGet_dictSet_ne _ _ hk]
    · simp [add_command, queueOf, hc, hlen]

theorem queueOf_get_command_ne {Cmd : Type} (m : ClientManager Cmd)
    (id k : String) (hk : id ≠ k) :
    queueOf ((get_command m id).2) k = queueOf m k := by
  cases hq : dictGet id m.commands_queue with
  | none => simp [get_command, hq]
  | some q =>
    cases q with
    | nil => simp [get_command, hq]
    | cons c rest => simp [get_command, queueOf, hq, dictGet_dictSet_ne _ _ hk]

theorem queueOf_addMany {Cmd : Type} (k : String) (cmds : List Cmd) :
    ∀ m : ClientManager Cmd, (dictGet k m.clients).isSome = true →
      queueOf (runOps m (cmds.map (fun c => Op.addCommand k c))) k =
        queueOf m k ++ cmds.take (10 - (queueOf m k).length) := by
  induction cmds with
  | nil => intro m _; simp [runOps]
  | cons c cs ih =>
    intro m hreg
    have hreg' : (dictGet k (add_command m k c).clients).isSome = true := by
      rw [add_command_clients]; exact hreg
    have hrun : runOps m ((c :: cs).map (fun c => Op.addCommand k c)) =
        runOps (add_command m k c) (cs.map (fun c => Op.addCommand k c)) := rfl
    rw [hrun, ih (add_command m k c) hreg']
    have hstep := queueOf_add_command_self m k c hreg
    by_cases hlen : (queueOf m k).length < 10
    · rw [if_pos hlen] at hstep
      rw [hstep]
      have h10 : 10 - (queueOf m k).length = (10 - ((queueOf m k).length + 1)) + 1 := by omega
      simp [h10, List.length_append]
    · rw [if_neg hlen] at hstep
      rw [hstep]
      have h10 : 10 - (queueOf m k).length = 0 := by omega
      simp [h10]

theorem drainAll_pop_all {Cmd : Type} : ∀ (n : Nat) (m : ClientManager Cmd) (k : String),
    (queueOf m k).length ≤ n → drainAll m k n = queueOf m k := by
  intro n
  induction n with
  | zero =>
    intro m k h
    have hq : queueOf m k = [] := List.eq_nil_of_length_eq_zero (Nat.le_zero.1 h)
    simp [drainAll, hq]
  | succ n ih =>
    intro m k h
    cases hq : dictGet k m.commands_queue with
    | none =>
      have hqof : queueOf m k = [] := by simp [queueOf, hq]
      simp [drainAll, get_command, hq, hqof]
    | some q =>
      cases q with
      | nil =>
        have hqof : queueOf m k = [] := by simp [queueOf, hq]
        simp [drainAll, get_command, hq, hqof]
      | cons c rest =>
        have hqof : queueOf m k = c :: rest := by simp [queueOf, hq]
        have hrest : queueOf
            ({ m with commands_queue := dictSet k rest m.commands_queue } : ClientManager Cmd) k
              = rest := by
          simp [queueOf, dictGet_dictSet_self]
        have hlen : (queueOf ({ m with commands_queue := dictSet k rest m.commands_queue } :
            ClientManager Cmd) k).length ≤ n := by
          rw [hrest]
          rw [hqof] at h
          simpa using Nat.lt_succ_iff.mp (Nat.lt_of_lt_of_le (Nat.lt_succ_self _) h)
        rw [hqof]
        simp only [drainAll, get_command, hq]
        rw [ih _ k hlen, hrest]

/-- C4 fails as stated: enqueueing 11 commands leaves the queue holding
the **first** ten commands — the oldest entry `1` survives and the newest
excess command `11` is the one dropped, not the oldest. Under the claim
("the commands lost are the oldest excess") the queue would be
`[2, ..., 11]`. -/
theorem add_command_drops_newest_not_oldest :
    queueOf (runOps (initManager Nat 50 ⟨0, 0, 0⟩)
        (enqueueTrace [1, 2, 3, 4, 5, 6, 7, 8, 9, 10, 11])) "c"
      = [1, 2, 3, 4, 5, 6, 7, 8, 9, 10] ∧
    queueOf (runOps (initManager Nat 50 ⟨0, 0, 0⟩)
        (enqueueTrace [1, 2, 3, 4, 5, 6, 7, 8, 9, 10, 11])) "c"
      ≠ [2, 3, 4, 5, 6, 7, 8, 9, 10, 11] := by decide

/-- C4 (amended). Enqueueing onto a full queue drops the incoming
(newest) command silently: after `n > 10` enqueues the queue stabilizes
at length 10 holding the first ten commands, and dequeue yields exactly
those earliest entries in FIFO order. -/
theorem add_command_overflow_keeps_first_ten (cmds : List Nat)
    (h : 10 < cmds.length) :
    queueOf (runOps (initManager Nat 50 ⟨0, 0, 0⟩) (enqueueTrace cmds)) "c"
      = cmds.take 10 ∧
    (queueOf (runOps (initManager Nat 50 ⟨0, 0, 0⟩) (enqueueTrace cmds)) "c").length = 10 ∧
    drainAll (runOps (initManager Nat 50 ⟨0, 0, 0⟩) (enqueueTrace cmds)) "c" 10
      = cmds.take 10 := by
  have hacc : can_accept_client (initManager Nat 50 ⟨0, 0, 0⟩) = true := by decide
  have hm1 := register_client_accepted (initManager Nat 50 ⟨0, 0, 0⟩) "c" "ip" "h" 0 hacc
  have hrun : runOps (initManager Nat 50 ⟨0, 0, 0⟩) (enqueueTrace cmds) =
      runOps ((register_client (initManager Nat 50 ⟨0, 0, 0⟩) "c" "ip" "h" 0).2)
        (cmds.map (fun c => Op.addCommand "c" c)) := rfl
  have hreg : (dictGet "c"
      ((register_client (initManager Nat 50 ⟨0, 0, 0⟩) "c" "ip" "h" 0).2).clients).isSome
        = true := by
    rw [hm1]; simp [dictGet_dictSet_self]
  have hq0 : queueOf ((register_client (initManager Nat 50 ⟨0, 0, 0⟩) "c" "ip" "h" 0).2) "c"
      = [] := by
    rw [hm1]; simp [queueOf, initManager, dictGet]
  have hq := queueOf_addMany "c" cmds _ hreg
  rw [hq0] at hq
  simp only [List.nil_append, List.length_nil, Nat.sub_zero] at hq
  rw [hrun]
  refine ⟨hq, ?_, ?_⟩
  · rw [hq]; simp [List.length_take]; omega
  · rw [drainAll_pop_all 10 _ "c" (by rw [hq]; simp [List.length_take]), hq]

/-- Witness for the amended C4 at the concrete 11-command sequence. -/
theorem add_command_overflow_keeps_first_ten_witness :
    queueOf (runOps (initManager Nat 50 ⟨0, 0, 0⟩)
        (enqueueTrace [1, 2, 3, 4, 5, 6, 7, 8, 9, 10, 11])) "c"
      = [1, 2, 3, 4, 5, 6, 7, 8, 9, 10, 11].take 10 ∧
    (queueOf (runOps (initManager Nat 50 ⟨0, 0, 0⟩)
        (enqueueTrace [1, 2, 3, 4, 5, 6, 7, 8, 9, 10, 11])) "c").length = 10 ∧
    drainAll (runOps (initManager Nat 50 ⟨0, 0, 0⟩)
        (enqueueTrace [1, 2, 3, 4, 5, 6, 7, 8, 9, 10, 11])) "c" 10
      = [1, 2, 3, 4, 5, 6, 7, 8, 9, 10, 11].take 10 :=
  add_command_overflow_keeps_first_ten [1, 2, 3, 4, 5, 6, 7, 8, 9, 10, 11] (by decide)

theorem queueOf_applyOp_bound {Cmd : Type} (m : ClientManager Cmd) (op : Op Cmd)
    (h : ∀ k, (queueOf m k).length ≤ 10) (k : String) :
    (queueOf (applyOp m op) k).length ≤ 10 := by
  cases op with
  | register id ip host now =>
    have hq : queueOf ((register_client m id ip host now).2) k = queueOf m k := by
      simp [queueOf, register_client_commands_queue]
    show (queueOf ((register_client m id ip host now).2) k).length ≤ 10
    rw [hq]; exact h k
  | heartbeat id now =>
    have hq : queueOf ((update_heartbeat m id now).2) k = queueOf m k := by
      simp [queueOf, update_heartbeat_commands_queue]
    show (queueOf ((update_heartbeat m id now).2) k).length ≤ 10
    rw [hq]; exact h k
  | addCommand id cmd =>
    show (queueOf (add_command m id cmd) k).length ≤ 10
    by_cases hreg : (dictGet id m.clients).isSome = true
    · by_cases hk : id = k
      · subst hk
        rw [queueOf_add_command_self m id cmd hreg]
        by_cases hlen : (queueOf m id).length < 10
        · rw [if_pos hlen]; simp [List.length_append]; omega
        · rw [if_neg hlen]; exact h id
      · rw [queueOf_add_command_ne m id k cmd hk]; exact h k
    · have hnone : dictGet id m.clients = none := by
        cases hd : dictGet id m.clients with
        | none => rfl
        | some c => rw [hd] at hreg; simp at hreg
      simp [add_command, hnone]; exact h k
  | getCommand id =>
    show (queueOf ((get_command m id).2) k).length ≤ 10
    by_cases hk : id = k
    · subst hk
      cases hq : dictGet id m.commands_queue with
      | none => simp [get_command, hq]; exact h id
      | some q =>
        cases q with
        | nil => simp [get_command, hq]; exact h id
        | cons c rest =>
          have hold := h id
          rw [show queueOf m id = c :: rest by simp [queueOf, hq]] at hold
          simp [get_command, queueOf, hq, dictGet_dictSet_self]
          simp at hold
          omega
    · rw [queueOf_get_command_ne m id k hk]; exact h k
  | cleanup now t =>
    show (queueOf (cleanup_inactive_clients m now t) k).length ≤ 10
    have hq : queueOf (cleanup_inactive_clients m now t) k = queueOf m k := by
      simp [queueOf, cleanup_commands_queue]
    rw [hq]; exact h k

theorem queueOf_runOps_bound {Cmd : Type} (ops : List (Op Cmd)) :
    ∀ m : ClientManager Cmd, (∀ k, (queueOf m k).length ≤ 10) →
      ∀ k, (queueOf (runOps m ops) k).length ≤ 10 := by
  induction ops with
  | nil => intro m h k; exact h k
  | cons op ops ih =>
    intro m h k
    exact ih (applyOp m op) (fun k' => queueOf_applyOp_bound m op h k') k

/-- C5. Along every sequence of registry operations from an empty
registry, no client's command queue ever exceeds the fixed bound of 10:
`add_command` appends only below the bound and drops the overflow command
instead of buffering it. -/
theorem queue_length_never_exceeds_bound (maxC : Nat) (res : SystemResources)
    (ops : List (Op Nat)) (k : String) :
    (queueOf (runOps (initManager Nat maxC res) ops) k).length ≤ 10 :=
  queueOf_runOps_bound ops (initManager Nat maxC res)
    (fun k' => by simp [queueOf, initManager, dictGet]) k

/-- C6. For a registered client with an empty queue, `add_command`
followed immediately by `get_command` returns exactly the enqueued
command, and a second `get_command` on the then-empty queue returns
`none` rather than an error. -/
theorem enqueue_dequeue_roundtrip {Cmd : Type} (m : ClientManager Cmd)
    (k : String) (cmd : Cmd)
    (hreg : (dictGet k m.clients).isSome = true) (hq : queueOf m k = []) :
    (get_command (add_command m k cmd) k).1 = some cmd ∧
    (get_command (get_command (add_command m k cmd) k).2 k).1 = none := by
  obtain ⟨c, hc⟩ := Option.isSome_iff_exists.1 hreg
  have hq' : (dictGet k m.commands_queue).getD [] = [] := hq
  have h1 : add_command m k cmd =
      { m with commands_queue := dictSet k [cmd] m.commands_queue } := by
    simp [add_command, hc, hq']
  have h2 : get_command (add_command m k cmd) k =
      (some cmd,
        { m with commands_queue := dictSet k [] (dictSet k [cmd] m.commands_queue) }) := by
    rw [h1]; simp [get_command, dictGet_dictSet_self]
  refine ⟨by rw [h2], ?_⟩
  rw [h2]
  simp [get_command, dictGet_dictSet_self]

/-- Witness for C6: a one-client registry, command `42`. -/
theorem enqueue_dequeue_roundtrip_witness :
    (get_command (add_command
        ({ clients := [("c", registeredInfo "c" "ip" "h" 0)] } : ClientManager Nat)
        "c" 42) "c").1 = some 42 ∧
    (get_command (get_command (add_command
        ({ clients := [("c", registeredInfo "c" "ip" "h" 0)] } : ClientManager Nat)
        "c" 42) "c").2 "c").1 = none :=
  enqueue_dequeue_roundtrip
    ({ clients := [("c", registeredInfo "c" "ip" "h" 0)] } : ClientManager Nat)
    "c" 42 (by decide) (by decide)

/-! ### Inactivity sweep lemmas -/

theorem dictGet_sweep_list (now t : Nat) (k : String) :
    ∀ l : List (String × ClientInfo),
      dictGet k (l.map (fun p => if now - p.2.last_seen > t
          then (p.1, { p.2 with status := "offline" }) else p)) =
        (dictGet k l).map (fun c => if now - c.last_seen > t
          then { c with status := "offline" } else c) := by
  intro l
  induction l with
  | nil => rfl
  | cons p rest ih =>
    obtain ⟨k', c⟩ := p
    simp only [List.map_cons]
    by_cases ht : now - c.last_seen > t
    · rw [if_pos ht]
      by_cases hk : k' = k
      · subst hk; simp [dictGet, ht]
      · simp [dictGet, hk, ih]
    · rw [if_neg ht]
      by_cases hk : k' = k
      · subst hk; simp [dictGet, ht]
      · simp [dictGet, hk, ih]

theorem dictGet_cleanup {Cmd : Type} (m : ClientManager Cmd) (now t : Nat) (k : String) :
    dictGet k (cleanup_inactive_clients m now t).clients =
      (dictGet k m.clients).map (fun c => if now - c.last_seen > t
        then { c with status := "offline" } else c) :=
  dictGet_sweep_list now t k m.clients

theorem cleanup_keys {Cmd : Type} (m : ClientManager Cmd) (now t : Nat) :
    (cleanup_inactive_clients m now t).clients.map Prod.fst = m.clients.map Prod.fst := by
  show (m.clients.map _).map Prod.fst = m.clients.map Prod.fst
  induction m.clients with
  | nil => rfl
  | cons p rest ih =>
    obtain ⟨k', c⟩ := p
    simp only [List.map_cons]
    by_cases ht : now - c.last_seen > t
    · rw [if_pos ht]; simp only [List.map_cons]; rw [ih]
    · rw [if_neg ht]; simp only [List.map_cons]; rw [ih]

theorem sweep_list_idem (now t : Nat) :
    ∀ l : List (String × ClientInfo),
      (l.map (fun p => if now - p.2.last_seen > t
          then (p.1, { p.2 with status := "offline" }) else p)).map
        (fun p => if now - p.2.last_seen > t
          then (p.1, { p.2 with status := "offline" }) else p) =
      l.map (fun p => if now - p.2.last_seen > t
          then (p.1, { p.2 with status := "offline" }) else p) := by
  intro l
  induction l with
  | nil => rfl
  | cons p rest ih =>
    obtain ⟨k', c⟩ := p
    by_cases ht : now - c.last_seen > t <;> simp [ht, ih]

theorem cleanup_idempotent {Cmd : Type} (m : ClientManager Cmd) (now t : Nat) :
    cleanup_inactive_clients (cleanup_inactive_clients m now t) now t =
      cleanup_inactive_clients m now t := by
  cases m with
  | mk cl q mx rt sr =>
    simp only [cleanup_inactive_clients]
    rw [sweep_list_idem now t cl]

/-- C9. The inactivity sweep sets status `offline` for exactly the
clients whose `now - last_seen` exceeds the timeout, changing no other
field of any record; it removes no record (the key sequence is
untouched), it leaves the command queues and every other manager field
unchanged, and it is idempotent for a fixed clock. -/
theorem cleanup_inactive_clients_spec {Cmd : Type} (m : ClientManager Cmd) (now t : Nat) :
    (∀ k, dictGet k (cleanup_inactive_clients m now t).clients =
      (dictGet k m.clients).map (fun c => if now - c.last_seen > t
        then { c with status := "offline" } else c)) ∧
    (cleanup_inactive_clients m now t).clients.map Prod.fst = m.clients.map Prod.fst ∧
    (cleanup_inactive_clients m now t).commands_queue = m.commands_queue ∧
    (cleanup_inactive_clients m now t).max_clients = m.max_clients ∧
    (cleanup_inactive_clients m now t).resource_threshold = m.resource_threshold ∧
    (cleanup_inactive_clients m now t).system_resources = m.system_resources ∧
    cleanup_inactive_clients (cleanup_inactive_clients m now t) now t =
      cleanup_inactive_clients m now t :=
  ⟨dictGet_cleanup m now t, cleanup_keys m now t, rfl, rfl, rfl, rfl,
   cleanup_idempotent m now t⟩

theorem register_client_succeeded {Cmd : Type} (m : ClientManager Cmd)
    (id ip host : String) (now : Nat)
    (h : (register_client m id ip host now).1 = true) :
    can_accept_client m = true := by
  rcases Bool.eq_false_or_eq_true (can_accept_client m) with ht | hf
  · exact ht
  · rw [register_client_rejected m id ip host now hf] at h
    simp at h

/-- C7. After a successful registration at `t0` with no heartbeat until
the sweep at `t1` with `t1 - t0 > timeout`, the sweep marks the client
offline; a subsequent heartbeat at `t2` returns true and restores status
`online` on the same record — `connection_time` stays `t0`. -/
theorem sweep_then_touch_restores (m : ClientManager Nat) (id ip host : String)
    (t0 t1 t2 timeout : Nat)
    (hok : (register_client m id ip host t0).1 = true)
    (hlate : t1 - t0 > timeout) :
    dictGet id
        (cleanup_inactive_clients (register_client m id ip host t0).2 t1 timeout).clients
      = some { registeredInfo id ip host t0 with status := "offline" } ∧
    (update_heartbeat
        (cleanup_inactive_clients (register_client m id ip host t0).2 t1 timeout)
        id t2).1 = true ∧
    dictGet id
        (update_heartbeat
          (cleanup_inactive_clients (register_client m id ip host t0).2 t1 timeout)
          id t2).2.clients
      = some { registeredInfo id ip host t0 with last_seen := t2, status := "online" } := by
  have hacc := register_client_succeeded m id ip host t0 hok
  have hm1 := register_client_accepted m id ip host t0 hacc
  have hg1 : dictGet id ((register_client m id ip host t0).2).clients
      = some (registeredInfo id ip host t0) := by
    rw [hm1]
    exact dictGet_dictSet_self id (registeredInfo id ip host t0) m.clients
  have hg2 : dictGet id
      (cleanup_inactive_clients (register_client m id ip host t0).2 t1 timeout).clients
      = some { registeredInfo id ip host t0 with status := "offline" } := by
    rw [dictGet_cleanup, hg1]
    simp [registeredInfo, hlate]
  refine ⟨hg2, ?_, ?_⟩
  · simp [update_heartbeat, hg2]
  · simp [update_heartbeat, hg2, dictGet_dictSet_self]

/-- Witness for C7: fresh registry, registration at 0, sweep at 400 with
timeout 300, heartbeat at 401. -/
theorem sweep_then_touch_restores_witness :
    dictGet "c1"
        (cleanup_inactive_clients
          (register_client (initManager Nat 50 ⟨0, 0, 0⟩) "c1" "1.1.1.1" "h" 0).2
          400 300).clients
      = some { registeredInfo "c1" "1.1.1.1" "h" 0 with status := "offline" } ∧
    (update_heartbeat
        (cleanup_inactive_clients
          (register_client (initManager Nat 50 ⟨0, 0, 0⟩) "c1" "1.1.1.1" "h" 0).2
          400 300) "c1" 401).1 = true ∧
    dictGet "c1"
        (update_heartbeat
          (cleanup_inactive_clients
            (register_client (initManager Nat 50 ⟨0, 0, 0⟩) "c1" "1.1.1.1" "h" 0).2
            400 300) "c1" 401).2.clients
      = some { registeredInfo "c1" "1.1.1.1" "h" 0 with last_seen := 401, status := "online" } :=
  sweep_then_touch_restores (initManager Nat 50 ⟨0, 0, 0⟩) "c1" "1.1.1.1" "h"
    0 400 401 300 (by decide) (by decide)

/-- C10. A heartbeat for an identifier that was never registered returns
false and changes nothing; a heartbeat for an existing client returns
true and only rewrites that client's record with `last_seen := now` and
status `online`. -/
theorem update_heartbeat_cases {Cmd : Type} (m : ClientManager Cmd)
    (id : String) (now : Nat) :
    (dictGet id m.clients = none → update_heartbeat m id now = (false, m)) ∧
    (∀ c, dictGet id m.clients = some c →
      update_heartbeat m id now =
        (true, { m with clients := dictSet id (touchedInfo c now) m.clients })) := by
  constructor
  · intro h; simp [update_heartbeat, h]
  · intro c h; simp [update_heartbeat, h, touchedInfo]

/-- Witness for C10: a never-registered id on an empty registry, and a
registered client `"c"`. -/
theorem update_heartbeat_cases_witness :
    update_heartbeat ({} : ClientManager Nat) "ghost" 5 = (false, ({} : ClientManager Nat)) ∧
    update_heartbeat
        ({ clients := [("c", registeredInfo "c" "i" "h" 0)] } : ClientManager Nat) "c" 5
      = (true, ({ clients := [("c", touchedInfo (registeredInfo "c" "i" "h" 0) 5)] } :
            ClientManager Nat)) :=
  ⟨(update_heartbeat_cases ({} : ClientManager Nat) "ghost" 5).1 (by decide),
   by
     rw [(update_heartbeat_cases
       ({ clients := [("c", registeredInfo "c" "i" "h" 0)] } : ClientManager Nat) "c" 5).2
       (registeredInfo "c" "i" "h" 0) (by decide)]
     rfl⟩

/-- C8. `allow_connection` prunes timestamps 60 s or older, returns true
and records the call time exactly when fewer than `max_connections`
pruned timestamps remain, and returns false without recording otherwise;
with `max = 3`, three calls in one window pass, a fourth is refused, and
a call 61 simulated seconds later passes again. -/
theorem allow_connection_spec :
    (∀ (r : ConnectionRateLimiter) (now : Nat),
      ((allow_connection r now).1 = true ↔
        (r.connection_times.filter (fun t => now - t < 60)).length < r.max_connections) ∧
      (allow_connection r now).2.connection_times =
        r.connection_times.filter (fun t => now - t < 60) ++
          (if (r.connection_times.filter (fun t => now - t < 60)).length < r.max_connections
           then [now] else []) ∧
      (allow_connection r now).2.max_connections = r.max_connections) ∧
    allowSeq ({ connection_times := [], max_connections := 3 } : ConnectionRateLimiter)
        [0, 0, 0, 0, 61] = [true, true, true, false, true] := by
  constructor
  · intro r now
    by_cases h : (r.connection_times.filter (fun t => now - t < 60)).length <
        r.max_connections <;>
      simp [allow_connection, h]
  · decide

end RemoteServer
